import Mathlib

/-!
Shallow embedding of the inflow.io client-side production pipeline
(App.tsx `generateFullProduction`, `handleBrainstorm`, `handleExport`;
services `createWavFile`, `brainstormIdeas`, `generateAssetImage`,
`generateAudio`; and the variant `generateVisualsForProject`), together
with theorems checking the repository's specification against it.

Remote Gateway calls are modelled as oracle parameters: an image oracle
`img : Nat → Except Unit String` giving the outcome of the i-th
image-generation request, and an audio outcome `aud : Except Unit String`.
`Except.error` models a thrown exception, `Except.ok` a returned handle.
-/

namespace Inflow

/-! ## Data model (src/types.ts, first variant) -/

structure VideoIdea where
  title : String
  hook : String
  description : String
  suggestedNiche : String
  deriving Repr, DecidableEq

structure ScriptSegment where
  id : String
  time : String
  text : String
  visualPrompt : String
  deriving Repr, DecidableEq

structure ProjectVisual where
  url : String
  segmentId : String
  isGenerating : Bool
  deriving Repr, DecidableEq

inductive ProjectStatus where
  | draft
  | ready
  | exported
  deriving Repr, DecidableEq

structure Project where
  id : String
  niche : String
  idea : VideoIdea
  script : List ScriptSegment
  audioData : Option String
  visuals : List ProjectVisual
  createdAt : Nat
  status : ProjectStatus
  deriving Repr, DecidableEq

inductive ProjectStep where
  | IDEATION
  | SCRIPTING
  | GENERATING
  | REVIEW
  deriving Repr, DecidableEq

/-- Dummy segment used with `List.getD`. -/
def dummySeg : ScriptSegment := ⟨"", "", "", ""⟩

/-- Dummy visual used with `List.getD`. -/
def dummyVis : ProjectVisual := ⟨"", "", false⟩

/-! ## WAV header construction (createWavFile, src/unnamed/part_001 lines 88-114)

`createWavFile` writes a 44-byte header through a `DataView`:
`setUint32 (off, v, true)` stores the 4 bytes of `v mod 2^32`
least-significant first, `setUint32 (off, v, false)` most-significant
first, `setUint16 (off, v, true)` the 2 bytes of `v mod 2^16`
least-significant first.  We model a byte as a `Nat < 256`. -/

/-- Little-endian byte split of a 32-bit store, as `DataView.setUint32`
with `littleEndian = true` performs (value taken mod 2^32). -/
def le32 (v : Nat) : List Nat :=
  [v % 256, v / 256 % 256, v / 65536 % 256, v / 16777216 % 256]

/-- Big-endian byte split of a 32-bit store (`littleEndian = false`). -/
def be32 (v : Nat) : List Nat :=
  [v / 16777216 % 256, v / 65536 % 256, v / 256 % 256, v % 256]

/-- Little-endian byte split of a 16-bit store (`DataView.setUint16`). -/
def le16 (v : Nat) : List Nat :=
  [v % 256, v / 256 % 256]

/-- The 44-byte WAV header `createWavFile` builds for a PCM payload of
`pcmLen` bytes at `sampleRate` Hz, byte for byte in the order of the
`setUint32`/`setUint16` calls of the source. -/
def wavHeader (pcmLen sampleRate : Nat) : List Nat :=
  be32 0x52494646 ++           -- "RIFF"
  le32 (36 + pcmLen) ++        -- file length
  be32 0x57415645 ++           -- "WAVE"
  be32 0x666d7420 ++           -- "fmt "
  le32 16 ++                   -- format chunk length
  le16 1 ++                    -- sample format (PCM)
  le16 1 ++                    -- channel count (mono)
  le32 sampleRate ++           -- sample rate
  le32 (sampleRate * 2) ++     -- byte rate
  le16 2 ++                    -- block align
  le16 16 ++                   -- bits per sample
  be32 0x64617461 ++           -- "data"
  le32 pcmLen                  -- data length

/-- Read a 32-bit little-endian field at byte offset `off`. -/
def readLE32 (bytes : List Nat) (off : Nat) : Nat :=
  bytes.getD off 0 + 256 * bytes.getD (off + 1) 0 +
  65536 * bytes.getD (off + 2) 0 + 16777216 * bytes.getD (off + 3) 0

/-- Read a 32-bit big-endian field (a four-character code) at offset `off`. -/
def readBE32 (bytes : List Nat) (off : Nat) : Nat :=
  16777216 * bytes.getD off 0 + 65536 * bytes.getD (off + 1) 0 +
  256 * bytes.getD (off + 2) 0 + bytes.getD (off + 3) 0

/-- Read a 16-bit little-endian field at byte offset `off`. -/
def readLE16 (bytes : List Nat) (off : Nat) : Nat :=
  bytes.getD off 0 + 256 * bytes.getD (off + 1) 0

/-- Claim C3: for every PCM byte length `L` and sample rate `R` representable in
the header's 32-bit fields, the header built by `createWavFile` has
data-length `L` (offset 40), file-length `36 + L` (offset 4), byte-rate
`R * 2` (offset 28), sample-rate `R` (offset 24), channel count 1
(offset 22), bits-per-sample 16 (offset 34) and block-align 2
(offset 32), all read little-endian, while the four four-character codes
"RIFF"/"WAVE"/"fmt "/"data" are stored big-endian, and the header is
exactly 44 bytes. -/
theorem wavHeader_fields (L R : Nat) (hL : 36 + L < 4294967296)
    (hR : R * 2 < 4294967296) :
    readLE32 (wavHeader L R) 40 = L ∧
    readLE32 (wavHeader L R) 4 = 36 + L ∧
    readLE32 (wavHeader L R) 28 = R * 2 ∧
    readLE32 (wavHeader L R) 24 = R ∧
    readLE16 (wavHeader L R) 22 = 1 ∧
    readLE16 (wavHeader L R) 34 = 16 ∧
    readLE16 (wavHeader L R) 32 = 2 ∧
    readBE32 (wavHeader L R) 0 = 0x52494646 ∧
    readBE32 (wavHeader L R) 8 = 0x57415645 ∧
    readBE32 (wavHeader L R) 12 = 0x666d7420 ∧
    readBE32 (wavHeader L R) 36 = 0x64617461 ∧
    (wavHeader L R).length = 44 := by
  have hdr : wavHeader L R =
      [0x52, 0x49, 0x46, 0x46,
       (36 + L) % 256, (36 + L) / 256 % 256, (36 + L) / 65536 % 256,
       (36 + L) / 16777216 % 256,
       0x57, 0x41, 0x56, 0x45,
       0x66, 0x6d, 0x74, 0x20,
       16, 0, 0, 0,
       1, 0,
       1, 0,
       R % 256, R / 256 % 256, R / 65536 % 256, R / 16777216 % 256,
       R * 2 % 256, R * 2 / 256 % 256, R * 2 / 65536 % 256,
       R * 2 / 16777216 % 256,
       2, 0,
       16, 0,
       0x64, 0x61, 0x74, 0x61,
       L % 256, L / 256 % 256, L / 65536 % 256, L / 16777216 % 256] := rfl
  rw [hdr]
  refine ⟨?_, ?_, ?_, ?_, ?_, ?_, ?_, ?_, ?_, ?_, ?_, ?_⟩ <;>
    simp only [readLE32, readLE16, readBE32, List.getD_cons_zero,
      List.getD_cons_succ, List.length_cons, List.length_nil] <;> omega

/-- Witness for `wavHeader_fields` at `L = 1000`, `R = 24000`. -/
theorem wavHeader_fields_witness :
    readLE32 (wavHeader 1000 24000) 40 = 1000 ∧
    readLE32 (wavHeader 1000 24000) 4 = 1036 ∧
    readLE32 (wavHeader 1000 24000) 28 = 48000 := by
  obtain ⟨h1, h2, h3, -⟩ := wavHeader_fields 1000 24000 (by decide) (by decide)
  exact ⟨h1, h2, h3⟩

/-! ## Pipeline orchestrator (App.tsx `generateFullProduction`, lines 137-174)

The React component state that the orchestrator reads and writes. -/

structure AppState where
  projects : List Project
  currentProject : Option Project
  currentStep : ProjectStep
  isPlaying : Bool
  deriving Repr, DecidableEq

/-- Result of a `generateFullProduction` call: the final component state
plus a trace of the Gateway requests issued (the image prompts requested,
in order, and the speech-synthesis texts requested) and whether the
`alert` in the catch block fired. -/
structure ProduceResult where
  state : AppState
  imageRequests : List String
  speechRequests : List String
  alerted : Bool
  deriving Repr, DecidableEq

/-- The per-segment image loop of `generateFullProduction` (lines 146-150):
for each segment in order, issue `generateAssetImage (segment.visualPrompt)`
— modelled by querying `img` at the segment's index — and push a
`ProjectVisual`.  A thrown error (`Except.error`) propagates out of the
loop, so the remaining segments are not requested.  Returns the prompts
requested together with the loop's outcome.  `i` is the index of the
first segment of `script` in the full script. -/
def genVisualsAux : List ScriptSegment → (Nat → Except Unit String) → Nat →
    List String × Except Unit (List ProjectVisual)
  | [], _, _ => ([], Except.ok [])
  | seg :: rest, img, i =>
    match img i with
    | Except.error e => ([seg.visualPrompt], Except.error e)
    | Except.ok url =>
      let (reqs, res) := genVisualsAux rest img (i + 1)
      (seg.visualPrompt :: reqs,
        match res with
        | Except.error e => Except.error e
        | Except.ok vs => Except.ok (⟨url, seg.id, false⟩ :: vs))

/-- The visuals the loop builds when every image call succeeds and the
i-th call returns `u i`: one visual per segment, in order, with
`url = u (k + index)`, `segmentId = segment.id`, `isGenerating = false`. -/
def visualsOf : List ScriptSegment → (Nat → String) → Nat → List ProjectVisual
  | [], _, _ => []
  | seg :: rest, u, k => ⟨u k, seg.id, false⟩ :: visualsOf rest u (k + 1)

/-- JavaScript `Array.prototype.join(sep)`: empty array gives `""`,
otherwise the elements interleaved with `sep`. -/
def jsJoin (sep : String) : List String → String
  | [] => ""
  | [s] => s
  | s :: rest => s ++ sep ++ jsJoin sep rest

/-- `generateFullProduction` (App.tsx lines 137-174).  If there is no
current project it returns immediately.  Otherwise it runs the
per-segment image loop; a failure there is caught by the outer catch
(alert, back to the SCRIPTING step) with no state committed.  On loop
success it issues one speech-synthesis request with all segment texts
joined by a single space; an audio failure is likewise caught with no
state committed.  On full success it builds the final project with the
visuals, the audio handle and status `ready`, makes it current, prepends
it to the project list, moves to the REVIEW step and starts playback. -/
def generateFullProduction (st : AppState) (img : Nat → Except Unit String)
    (aud : Except Unit String) : ProduceResult :=
  match st.currentProject with
  | none => ⟨st, [], [], false⟩
  | some proj =>
    let (reqs, vres) := genVisualsAux proj.script img 0
    match vres with
    | Except.error _ =>
      ⟨{ st with currentStep := ProjectStep.SCRIPTING }, reqs, [], true⟩
    | Except.ok visuals =>
      let fullText := jsJoin " " (proj.script.map (·.text))
      match aud with
      | Except.error _ =>
        ⟨{ st with currentStep := ProjectStep.SCRIPTING }, reqs, [fullText], true⟩
      | Except.ok audioUrl =>
        let finalProject : Project :=
          { proj with visuals := visuals, audioData := some audioUrl,
                      status := ProjectStatus.ready }
        ⟨{ st with currentProject := some finalProject,
                   projects := finalProject :: st.projects,
                   currentStep := ProjectStep.REVIEW,
                   isPlaying := true }, reqs, [fullText], false⟩

/-- The project `selectIdea` (App.tsx lines 115-135) constructs from an
idea and the Gateway's script: empty visuals, no audio, status `draft`. -/
def createProjectFromIdea (idea : VideoIdea) (script : List ScriptSegment)
    (pid : String) (now : Nat) : Project :=
  { id := pid, niche := idea.suggestedNiche, idea := idea, script := script,
    audioData := none, visuals := [], createdAt := now,
    status := ProjectStatus.draft }

/-! ## Lemmas about the visual loop and the join -/

theorem visualsOf_length (u : Nat → String) :
    ∀ (script : List ScriptSegment) (k : Nat),
      (visualsOf script u k).length = script.length := by
  intro script
  induction script with
  | nil => intro k; rfl
  | cons seg rest ih => intro k; simp [visualsOf, ih]

theorem visualsOf_getD (u : Nat → String) :
    ∀ (script : List ScriptSegment) (k n : Nat), n < script.length →
      (visualsOf script u k).getD n dummyVis =
        ⟨u (k + n), (script.getD n dummySeg).id, false⟩ := by
  intro script
  induction script with
  | nil => intro k n h; simp at h
  | cons seg rest ih =>
    intro k n h
    cases n with
    | zero => simp [visualsOf]
    | succ m =>
      have hm : m < rest.length := by simp at h; omega
      have := ih (k + 1) m hm
      have hk : k + 1 + m = k + (m + 1) := by omega
      rw [hk] at this
      simpa [visualsOf] using this

theorem genVisualsAux_ok (img : Nat → Except Unit String) (u : Nat → String) :
    ∀ (script : List ScriptSegment) (k : Nat),
      (∀ j, k ≤ j → j < k + script.length → img j = Except.ok (u j)) →
      genVisualsAux script img k =
        (script.map (·.visualPrompt), Except.ok (visualsOf script u k)) := by
  intro script
  induction script with
  | nil => intro k _; rfl
  | cons seg rest ih =>
    intro k h
    have hk : img k = Except.ok (u k) := h k le_rfl (by simp)
    have hrest := ih (k + 1) (fun j hj1 hj2 => by
      refine h j (by omega) ?_
      simp only [List.length_cons] at hj2 ⊢
      omega)
    simp [genVisualsAux, hk, hrest, visualsOf]

theorem genVisualsAux_fail (img : Nat → Except Unit String) :
    ∀ (script : List ScriptSegment) (k n : Nat), n < script.length →
      (∀ j, j < n → (img (k + j)).isOk) → img (k + n) = Except.error () →
      genVisualsAux script img k =
        ((script.take (n + 1)).map (·.visualPrompt), Except.error ()) := by
  intro script
  induction script with
  | nil => intro k n h; simp at h
  | cons seg rest ih =>
    intro k n hn hok hfail
    cases n with
    | zero =>
      simp at hfail
      simp [genVisualsAux, hfail]
    | succ m =>
      have h0 : (img k).isOk := by simpa using hok 0 (Nat.succ_pos m)
      obtain ⟨url, hurl⟩ : ∃ url, img k = Except.ok url := by
        cases himg : img k with
        | error e =>
          rw [himg] at h0
          simp [Except.isOk, Except.toBool] at h0
        | ok v => exact ⟨v, rfl⟩
      have hrest := ih (k + 1) m (by simpa using Nat.lt_of_succ_lt_succ hn)
        (fun j hj => by
          have := hok (j + 1) (Nat.succ_lt_succ hj)
          simpa [Nat.add_assoc, Nat.add_comm 1 j] using this)
        (by
          have : k + 1 + m = k + (m + 1) := by omega
          rw [this]; exact hfail)
      simp [genVisualsAux, hurl, hrest]

theorem jsJoin_go_eq (s : String) :
    ∀ (as : List String) (acc : String),
      String.intercalate.go acc s as = jsJoin s (acc :: as) := by
  intro as
  induction as with
  | nil => intro acc; rfl
  | cons a rest ih =>
    intro acc
    rw [String.intercalate.go, ih]
    cases rest with
    | nil => rfl
    | cons b t =>
      show acc ++ s ++ a ++ s ++ jsJoin s (b :: t) =
        acc ++ s ++ (a ++ s ++ jsJoin s (b :: t))
      simp [String.append_assoc]

/-- `Array.prototype.join(sep)` agrees with `String.intercalate sep`. -/
theorem jsJoin_eq_intercalate (s : String) (l : List String) :
    jsJoin s l = String.intercalate s l := by
  cases l with
  | nil => rfl
  | cons a as => rw [String.intercalate, jsJoin_go_eq]

/-- Any `Except.ok` outcome of the visual loop has one visual per segment,
in order, each visual carrying the id of the segment at its index, and
each visual's `segmentId` appearing among the script's segment ids. -/
theorem genVisualsAux_ok_shape (img : Nat → Except Unit String) :
    ∀ (script : List ScriptSegment) (k : Nat) (reqs : List String)
      (vs : List ProjectVisual),
      genVisualsAux script img k = (reqs, Except.ok vs) →
      vs.length = script.length ∧
      (∀ n, n < script.length →
        (vs.getD n dummyVis).segmentId = (script.getD n dummySeg).id) ∧
      (∀ v ∈ vs, v.segmentId ∈ script.map (·.id)) := by
  intro script
  induction script with
  | nil =>
    intro k reqs vs h
    simp [genVisualsAux] at h
    simp [h.2]
  | cons seg rest ih =>
    intro k reqs vs h
    cases himg : img k with
    | error e =>
      rw [genVisualsAux, himg] at h
      simp at h
    | ok url =>
      rcases hrec : genVisualsAux rest img (k + 1) with ⟨reqs', res'⟩
      rw [genVisualsAux, himg, hrec] at h
      cases res' with
      | error e => simp at h
      | ok vs' =>
        simp at h
        obtain ⟨hreqs, hvs⟩ := h
        obtain ⟨ihlen, ihidx, ihmem⟩ := ih (k + 1) reqs' vs' hrec
        subst hvs
        refine ⟨by simp [ihlen], ?_, ?_⟩
        · intro n hn
          cases n with
          | zero => simp
          | succ m =>
            have hm : m < rest.length := by simp at hn; omega
            simpa using ihidx m hm
        · intro v hv
          rcases List.mem_cons.mp hv with hv0 | hv1
          · subst hv0; simp
          · simp only [List.map_cons, List.mem_cons]
            exact Or.inr (ihmem v hv1)

/-! ## The variant visual loop (src/unnamed/part_002 lines 1009-1028)

Types of the variant (src/unnamed/part_003): segments carry the generated
image inline as `visualImage`. -/

structure ScriptSegment2 where
  id : String
  time : String
  text : String
  visualPrompt : String
  visualImage : Option String
  deriving Repr, DecidableEq

structure Project2 where
  id : String
  title : String
  niche : String
  idea : VideoIdea
  script : List ScriptSegment2
  createdAt : Nat
  lastModified : Nat
  deriving Repr, DecidableEq

/-- The loop body of `generateVisualsForProject`: segments that already
carry a `visualImage` are skipped (`continue`) without a Gateway call;
otherwise `generateStoryboardImage` is called — modelled by `img i`,
returning `none` when it failed or produced no image (its errors are
caught internally) — and on a result the segment is annotated in place;
on `none` the segment is left unchanged and the loop continues.  Returns
the updated segments and the indices for which a Gateway call was
issued. -/
def genVis2Aux : List ScriptSegment2 → (Nat → Option String) → Nat →
    List ScriptSegment2 × List Nat
  | [], _, _ => ([], [])
  | seg :: rest, img, i =>
    if seg.visualImage.isSome then
      let (rs, calls) := genVis2Aux rest img (i + 1)
      (seg :: rs, calls)
    else
      let (rs, calls) := genVis2Aux rest img (i + 1)
      match img i with
      | some b64 => ({ seg with visualImage := some b64 } :: rs, i :: calls)
      | none => (seg :: rs, i :: calls)

/-- `generateVisualsForProject` (src/unnamed/part_002 lines 1009-1028):
run the resumable per-segment loop over the project's script. -/
def generateVisualsForProject (p : Project2) (img : Nat → Option String) :
    Project2 × List Nat :=
  let (s, calls) := genVis2Aux p.script img 0
  ({ p with script := s }, calls)

/-- When every segment already carries a `visualImage`, the variant loop
issues no Gateway call and changes nothing. -/
theorem genVis2Aux_all_present (img : Nat → Option String) :
    ∀ (script : List ScriptSegment2) (i : Nat),
      (∀ seg ∈ script, seg.visualImage.isSome = true) →
      genVis2Aux script img i = (script, []) := by
  intro script
  induction script with
  | nil => intro i _; rfl
  | cons seg rest ih =>
    intro i h
    have hseg : seg.visualImage.isSome = true := h seg (List.mem_cons_self seg rest)
    have hrest := ih (i + 1) (fun s hs => h s (List.mem_cons_of_mem seg hs))
    simp [genVis2Aux, hseg, hrest]

/-! ## Brainstorm (brainstormIdeas, src/unnamed/part_000 lines 10-47 and
src/unnamed/part_001 lines 116-146)

`brainstormIdeas` sends one Gateway request and then runs
`try { return JSON.parse(response.text || '[]'); } catch (e) { return []; }`.
We model the dynamic value `JSON.parse` produces (the TypeScript return
type annotation `VideoIdea[]` is not checked at runtime) and the outcome
of the parse as an `Except`: `Except.error` when `JSON.parse` threw on
the response text (with `''` and missing text replaced by `'[]'`, which
parses to the empty array), `Except.ok v` when it returned the value
`v`. -/

inductive Json where
  | null
  | bool (b : Bool)
  | num (n : Int)
  | str (s : String)
  | arr (elems : List Json)
  | obj (fields : List (String × Json))
  deriving Repr

/-- What `brainstormIdeas` returns for a given parse outcome: the parsed
value as-is on success, the empty array on a caught parse exception. -/
def brainstormIdeas (parsed : Except Unit Json) : Json :=
  match parsed with
  | Except.ok v => v
  | Except.error _ => Json.arr []

/-- A JSON value that is a string. -/
def isStrJson : Json → Bool
  | Json.str _ => true
  | _ => false

/-- A well-formed Idea: an object whose `title`, `hook`, `description`
and `suggestedNiche` fields are present and are strings. -/
def isIdea : Json → Bool
  | Json.obj fields =>
    (match fields.lookup "title" with
     | some v => isStrJson v
     | none => false) &&
    (match fields.lookup "hook" with
     | some v => isStrJson v
     | none => false) &&
    (match fields.lookup "description" with
     | some v => isStrJson v
     | none => false) &&
    (match fields.lookup "suggestedNiche" with
     | some v => isStrJson v
     | none => false)
  | _ => false

/-- A list of well-formed Ideas: an array whose elements all satisfy
`isIdea`. -/
def isIdeaList : Json → Bool
  | Json.arr elems => elems.all isIdea
  | _ => false

/-! ## Export file name (handleExport, App.tsx lines 201-210)

The download name is
`currentProject.idea.title.replace(/\s+/g, '_') + '_inflow.webm'`.
JavaScript's `\s` character class and `String.prototype.trim` both cover
the same whitespace set (tab, line feed, vertical tab, form feed,
carriage return, space, no-break space, the Unicode space separators,
the line and paragraph separators, and the byte-order mark). -/

/-- A character matched by JavaScript's `\s` (also the set trimmed by
`String.prototype.trim`). -/
def isJsSpace (c : Char) : Bool :=
  (c.toNat == 0x09) || (c.toNat == 0x0a) || (c.toNat == 0x0b) ||
  (c.toNat == 0x0c) || (c.toNat == 0x0d) || (c.toNat == 0x20) ||
  (c.toNat == 0xa0) || (c.toNat == 0x1680) ||
  (0x2000 ≤ c.toNat && c.toNat ≤ 0x200a) ||
  (c.toNat == 0x2028) || (c.toNat == 0x2029) || (c.toNat == 0x202f) ||
  (c.toNat == 0x205f) || (c.toNat == 0x3000) || (c.toNat == 0xfeff)

/-- `replace(/\s+/g, '_')` on a character list: each maximal run of
whitespace characters becomes a single `'_'`; every other character is
kept unchanged.  The flag records whether the previous character was
part of a whitespace run already replaced. -/
def collapseWsAux : Bool → List Char → List Char
  | _, [] => []
  | prevSpace, c :: rest =>
    if isJsSpace c then
      if prevSpace then collapseWsAux true rest
      else '_' :: collapseWsAux true rest
    else c :: collapseWsAux false rest

/-- `title.replace(/\s+/g, '_')` as used by `handleExport`. -/
def sanitizeTitle (s : String) : String :=
  String.mk (collapseWsAux false s.data)

/-- The download file name `handleExport` assigns (App.tsx line 206). -/
def exportFileName (title : String) : String :=
  sanitizeTitle title ++ "_inflow.webm"

/-! ## Brainstorm command (handleBrainstorm, App.tsx lines 102-113) -/

/-- `String.prototype.trim`: strip leading and trailing JavaScript
whitespace. -/
def jsTrim (s : String) : String :=
  String.mk (((s.data.dropWhile isJsSpace).reverse.dropWhile isJsSpace).reverse)

/-- The component state `handleBrainstorm` can read or write, plus the
persisted project list and the current project, which the claim asserts
are left untouched. -/
structure IdeationState where
  nicheInput : String
  ideas : List VideoIdea
  currentProject : Option Project
  projects : List Project
  loading : Option String
  deriving Repr, DecidableEq

/-- `handleBrainstorm` (App.tsx lines 102-113): if the trimmed niche
input is empty (`!nicheInput.trim()`), return immediately; otherwise set
the loading message, call `brainstormIdeas (nicheInput)` — whose outcome
is `res`, `Except.error` when the Gateway call threw (the catch only
logs) — store the returned ideas on success, and clear the loading
message in the `finally` block.  The second component lists the niche
strings sent to the Gateway during the call. -/
def handleBrainstorm (st : IdeationState) (res : Except Unit (List VideoIdea)) :
    IdeationState × List String :=
  if jsTrim st.nicheInput = "" then (st, [])
  else
    match res with
    | Except.ok ideas => ({ st with ideas := ideas, loading := none }, [st.nicheInput])
    | Except.error _ => ({ st with loading := none }, [st.nicheInput])

/-! ## Branch characterizations of `generateFullProduction` -/

/-- The final project a fully successful `produce` call commits, when
the `j`-th image call returned `u j` and the speech call returned `a`. -/
def producedProject (proj : Project) (u : Nat → String) (a : String) : Project :=
  { proj with
      visuals := visualsOf proj.script u 0,
      audioData := some a,
      status := ProjectStatus.ready }

/-- The final project `produce` commits when the visual loop returned
the visuals `vs` and the speech call returned `a`. -/
def committedProject (proj : Project) (vs : List ProjectVisual) (a : String) : Project :=
  { proj with
      visuals := vs,
      audioData := some a,
      status := ProjectStatus.ready }

/-- If the image call for segment `i` throws (all earlier ones having
succeeded), the whole `produce` call aborts through the outer catch. -/
theorem generateFullProduction_imageFail (st : AppState)
    (img : Nat → Except Unit String) (aud : Except Unit String)
    (proj : Project) (i : Nat)
    (hc : st.currentProject = some proj) (hi : i < proj.script.length)
    (hok : ∀ j, j < i → (img j).isOk) (hfail : img i = Except.error ()) :
    generateFullProduction st img aud =
      ⟨{ st with currentStep := ProjectStep.SCRIPTING },
       (proj.script.take (i + 1)).map (·.visualPrompt), [], true⟩ := by
  have hg := genVisualsAux_fail img proj.script 0 i hi
    (fun j hj => by simpa using hok j hj) (by simpa using hfail)
  simp [generateFullProduction, hc, hg]

/-- If every image call succeeds (the `j`-th returning `u j`) and the
speech call throws, `produce` aborts through the outer catch after
having issued every image request and the single speech request. -/
theorem generateFullProduction_audioFail (st : AppState)
    (img : Nat → Except Unit String) (aud : Except Unit String)
    (proj : Project) (u : Nat → String)
    (hc : st.currentProject = some proj)
    (hall : ∀ j, j < proj.script.length → img j = Except.ok (u j))
    (haud : aud = Except.error ()) :
    generateFullProduction st img aud =
      ⟨{ st with currentStep := ProjectStep.SCRIPTING },
       proj.script.map (·.visualPrompt),
       [jsJoin " " (proj.script.map (·.text))], true⟩ := by
  have hg := genVisualsAux_ok img u proj.script 0
    (fun j _ hj2 => hall j (by simpa using hj2))
  simp [generateFullProduction, hc, hg, haud]

/-- If every image call succeeds (the `j`-th returning `u j`) and the
speech call returns `a`, `produce` commits the final project. -/
theorem generateFullProduction_allOk (st : AppState)
    (img : Nat → Except Unit String) (aud : Except Unit String)
    (proj : Project) (u : Nat → String) (a : String)
    (hc : st.currentProject = some proj)
    (hall : ∀ j, j < proj.script.length → img j = Except.ok (u j))
    (haud : aud = Except.ok a) :
    generateFullProduction st img aud =
      ⟨{ st with
           currentProject := some { proj with
             visuals := visualsOf proj.script u 0,
             audioData := some a, status := ProjectStatus.ready },
           projects := { proj with
             visuals := visualsOf proj.script u 0,
             audioData := some a, status := ProjectStatus.ready } :: st.projects,
           currentStep := ProjectStep.REVIEW, isPlaying := true },
       proj.script.map (·.visualPrompt),
       [jsJoin " " (proj.script.map (·.text))], false⟩ := by
  have hg := genVisualsAux_ok img u proj.script 0
    (fun j _ hj2 => hall j (by simpa using hj2))
  simp [generateFullProduction, hc, hg, haud]

/-! ## Concrete fixtures used by counterexamples and witnesses -/

def cexIdea : VideoIdea := ⟨"Title", "Hook", "Desc", "niche"⟩

def cexScript5 : List ScriptSegment :=
  [⟨"s0", "0:00-0:03", "t0", "p0"⟩, ⟨"s1", "0:03-0:06", "t1", "p1"⟩,
   ⟨"s2", "0:06-0:09", "t2", "p2"⟩, ⟨"s3", "0:09-0:12", "t3", "p3"⟩,
   ⟨"s4", "0:12-0:15", "t4", "p4"⟩]

def cexProj5 : Project :=
  ⟨"id5", "niche", cexIdea, cexScript5, none, [], 0, ProjectStatus.draft⟩

def cexState5 : AppState := ⟨[], some cexProj5, ProjectStep.SCRIPTING, false⟩

/-- Image oracle failing exactly at segment index 2. -/
def cexImgFail2 : Nat → Except Unit String :=
  fun i => if i = 2 then Except.error () else Except.ok "img"

/-- Image oracle succeeding at every index. -/
def allOkImg : Nat → Except Unit String := fun _ => Except.ok "img"

def cexProduced5 : Project :=
  { cexProj5 with
      visuals := [⟨"img", "s0", false⟩, ⟨"img", "s1", false⟩,
                  ⟨"img", "s2", false⟩, ⟨"img", "s3", false⟩,
                  ⟨"img", "s4", false⟩],
      audioData := some "audio", status := ProjectStatus.ready }

def c2Script : List ScriptSegment :=
  [⟨"a", "0:00", "ta", "pa"⟩, ⟨"b", "0:05", "tb", "pb"⟩]

def c2Proj : Project :=
  ⟨"idC2", "niche", cexIdea, c2Script, none, [], 0, ProjectStatus.draft⟩

def c2State : AppState := ⟨[], some c2Proj, ProjectStep.SCRIPTING, false⟩

/-- The first, fully successful `produce` call on `c2Proj`. -/
def c2First : ProduceResult :=
  generateFullProduction c2State (fun _ => Except.ok "img1") (Except.ok "audio1")

/-- A second `produce` call on the state the first call left behind. -/
def c2Second : ProduceResult :=
  generateFullProduction c2First.state (fun _ => Except.ok "img2") (Except.ok "audio2")

/-- The project the first call produced. -/
def c2Produced : Project :=
  { c2Proj with
      visuals := [⟨"img1", "a", false⟩, ⟨"img1", "b", false⟩],
      audioData := some "audio1", status := ProjectStatus.ready }

/-- A variant project whose only segment already carries a visual. -/
def v2Proj : Project2 :=
  ⟨"v2", "T", "n", cexIdea, [⟨"x", "0:00", "tx", "px", some "imgx"⟩], 0, 0⟩

/-! ## Claim C1 -/

/-- Claim C1 is false at a concrete input: with the 5-segment script of
`cexProj5` and the image Gateway failing for index 2 only (audio set to
succeed), `generateFullProduction` does NOT continue with the remaining
segments.  The current project is left exactly as it was — no segment
receives a Visual, the status stays `draft` — the project is not added
to the list, the UI falls back to the scripting step, and segments 3 and
4 are never requested (only prompts p0, p1, p2 go out), contradicting
the claim that segments 0,1,3,4 get Visuals and the project reaches
`ready`. -/
theorem produce_partialFailure_counterexample :
    (generateFullProduction cexState5 cexImgFail2 (Except.ok "audio")).state.currentProject
        = some cexProj5 ∧
    cexProj5.visuals = [] ∧ cexProj5.status = ProjectStatus.draft ∧
    (generateFullProduction cexState5 cexImgFail2 (Except.ok "audio")).state.currentStep
        = ProjectStep.SCRIPTING ∧
    (generateFullProduction cexState5 cexImgFail2 (Except.ok "audio")).imageRequests
        = ["p0", "p1", "p2"] ∧
    (generateFullProduction cexState5 cexImgFail2 (Except.ok "audio")).speechRequests
        = [] ∧
    (generateFullProduction cexState5 cexImgFail2 (Except.ok "audio")).state.projects
        = [] := by
  decide

/-- Claim C1 amended: in `generateFullProduction` there is no per-segment
error recovery — if the image-generation Gateway call fails for segment
`i` (all earlier segments having succeeded), the exception propagates to
the outer catch and the whole production aborts: the current project is
unchanged (so no segment receives a Visual and the status is untouched),
nothing is added to the project list, the UI returns to the scripting
step, segments after `i` are never requested, and no speech synthesis is
attempted. -/
theorem produce_imageFailure_aborts (st : AppState)
    (img : Nat → Except Unit String) (aud : Except Unit String)
    (proj : Project) (i : Nat)
    (hc : st.currentProject = some proj) (hi : i < proj.script.length)
    (hok : ∀ j, j < i → (img j).isOk) (hfail : img i = Except.error ()) :
    (generateFullProduction st img aud).state.currentProject = st.currentProject ∧
    (generateFullProduction st img aud).state.projects = st.projects ∧
    (generateFullProduction st img aud).state.currentStep = ProjectStep.SCRIPTING ∧
    (generateFullProduction st img aud).imageRequests
        = (proj.script.take (i + 1)).map (·.visualPrompt) ∧
    (generateFullProduction st img aud).speechRequests = [] ∧
    (generateFullProduction st img aud).alerted = true := by
  rw [generateFullProduction_imageFail st img aud proj i hc hi hok hfail]
  exact ⟨rfl, rfl, rfl, rfl, rfl, rfl⟩

/-- Witness for `produce_imageFailure_aborts` at the concrete input of
the counterexample. -/
theorem produce_imageFailure_aborts_witness :
    (generateFullProduction cexState5 cexImgFail2 (Except.ok "audio")).state.currentStep
        = ProjectStep.SCRIPTING :=
  (produce_imageFailure_aborts cexState5 cexImgFail2 (Except.ok "audio") cexProj5 2
    rfl (by decide) (by intro j hj; interval_cases j <;> decide) rfl).2.2.1

/-! ## Claim C2 -/

/-- Claim C2 is false at a concrete input: after a first fully successful
`produce` call on the 2-segment project `c2Proj` (every segment got a
Visual and `audioData` is `some "audio1"`), a second `produce` call
issues an image Gateway request for BOTH segments again (prompts
pa and pb) and replaces the audio handle with the newly synthesized one,
contradicting "no Gateway image request for any segment" and "leaves the
audio handle unchanged". -/
theorem produce_idempotence_counterexample :
    c2First.state.currentProject = some c2Produced ∧
    c2Second.imageRequests = ["pa", "pb"] ∧
    c2Second.state.currentProject.map Project.audioData = some (some "audio2") := by
  decide

/-- Claim C2 amended: `generateFullProduction` is not idempotent — a
second call on a fully produced project issues one image Gateway request
per segment (already-attached Visuals are never consulted) and replaces
`audioData` with the newly synthesized handle.  The skip behaviour the
spec describes exists only in the variant `generateVisualsForProject`,
which issues no Gateway call for (and does not modify) a script whose
segments all already carry a `visualImage`. -/
theorem produce_not_idempotent_variant_skips :
    (∀ (st : AppState) (img : Nat → Except Unit String) (aud : Except Unit String)
       (proj : Project) (u : Nat → String) (a : String),
       st.currentProject = some proj →
       (∀ j, j < proj.script.length → img j = Except.ok (u j)) →
       aud = Except.ok a →
       (generateFullProduction st img aud).imageRequests
           = proj.script.map (·.visualPrompt) ∧
       (generateFullProduction st img aud).state.currentProject
           = some (producedProject proj u a)) ∧
    (∀ (p : Project2) (img : Nat → Option String),
       (∀ seg ∈ p.script, seg.visualImage.isSome = true) →
       generateVisualsForProject p img = (p, [])) := by
  constructor
  · intro st img aud proj u a hc hall haud
    rw [generateFullProduction_allOk st img aud proj u a hc hall haud]
    exact ⟨rfl, by simp [producedProject]⟩
  · intro p img h
    have hg := genVis2Aux_all_present img p.script 0 h
    simp [generateVisualsForProject, hg]

/-- Witness for `produce_not_idempotent_variant_skips`: the second call
of the counterexample re-requests both prompts, and the variant with an
already-visualized script issues no call. -/
theorem produce_not_idempotent_variant_skips_witness :
    (generateFullProduction c2First.state (fun _ => Except.ok "img2")
        (Except.ok "audio2")).imageRequests = c2Produced.script.map (·.visualPrompt) ∧
    generateVisualsForProject v2Proj (fun _ => none) = (v2Proj, []) :=
  ⟨(produce_not_idempotent_variant_skips.1 c2First.state (fun _ => Except.ok "img2")
      (Except.ok "audio2") c2Produced (fun _ => "img2") "audio2"
      (by decide) (fun _ _ => rfl) rfl).1,
   produce_not_idempotent_variant_skips.2 v2Proj (fun _ => none) (by decide)⟩

/-! ## Claim C5 -/

/-- Claim C5: if the speech-synthesis call of `produce` throws (after all
image calls succeeded), the call is atomic — the current project is
exactly as before (so its status is still `draft`, its `visuals` field
and `audioData` are untouched), nothing is added to the project list,
and the UI falls back to the scripting step. -/
theorem produce_audioFailure_atomic (st : AppState)
    (img : Nat → Except Unit String) (aud : Except Unit String)
    (proj : Project) (u : Nat → String)
    (hc : st.currentProject = some proj)
    (hdraft : proj.status = ProjectStatus.draft)
    (hall : ∀ j, j < proj.script.length → img j = Except.ok (u j))
    (haud : aud = Except.error ()) :
    (generateFullProduction st img aud).state.currentProject = st.currentProject ∧
    (generateFullProduction st img aud).state.projects = st.projects ∧
    (generateFullProduction st img aud).state.currentStep = ProjectStep.SCRIPTING ∧
    (∀ p, (generateFullProduction st img aud).state.currentProject = some p →
        p.status = ProjectStatus.draft ∧ p.visuals = proj.visuals ∧
        p.audioData = proj.audioData) := by
  rw [generateFullProduction_audioFail st img aud proj u hc hall haud]
  refine ⟨rfl, rfl, rfl, ?_⟩
  intro p hp
  rw [hc] at hp
  injection hp with hp
  subst hp
  exact ⟨hdraft, rfl, rfl⟩

/-- Witness for `produce_audioFailure_atomic` on the concrete
5-segment project with every image call succeeding and audio failing. -/
theorem produce_audioFailure_atomic_witness :
    (generateFullProduction cexState5 allOkImg (Except.error ())).state.currentProject
        = cexState5.currentProject ∧
    (generateFullProduction cexState5 allOkImg (Except.error ())).state.projects
        = cexState5.projects :=
  let h := produce_audioFailure_atomic cexState5 allOkImg (Except.error ())
    cexProj5 (fun _ => "img") rfl rfl (fun _ _ => rfl) rfl
  ⟨h.1, h.2.1⟩

/-! ## Claim C6 -/

/-- Claim C6: starting from a `draft` project, every project that
`generateFullProduction` makes current or newly adds to the project list
with status `ready` has an audio handle, exactly one Visual per Segment,
and each Visual at an index carries the id of the Segment at that index
— no execution path reaches `ready` with a missing Visual or without
audio. -/
theorem ready_only_with_all_visuals_and_audio (st : AppState)
    (img : Nat → Except Unit String) (aud : Except Unit String)
    (proj : Project)
    (hc : st.currentProject = some proj)
    (hdraft : proj.status = ProjectStatus.draft) :
    ∀ p, ((generateFullProduction st img aud).state.currentProject = some p ∨
          (p ∈ (generateFullProduction st img aud).state.projects ∧
           p ∉ st.projects)) →
      p.status = ProjectStatus.ready →
      p.audioData.isSome = true ∧
      p.visuals.length = p.script.length ∧
      (∀ n, n < p.script.length →
        (p.visuals.getD n dummyVis).segmentId = (p.script.getD n dummySeg).id) := by
  rcases hg : genVisualsAux proj.script img 0 with ⟨reqs, vres⟩
  cases vres with
  | error e =>
    have hres : generateFullProduction st img aud =
        ⟨{ st with currentStep := ProjectStep.SCRIPTING }, reqs, [], true⟩ := by
      simp [generateFullProduction, hc, hg]
    intro p hp hready
    rw [hres] at hp
    rcases hp with hp | ⟨hp1, hp2⟩
    · simp only [hc] at hp
      injection hp with hp
      subst hp
      rw [hready] at hdraft
      cases hdraft
    · exact absurd hp1 hp2
  | ok vs =>
    obtain ⟨hlen, hidx, hmem⟩ := genVisualsAux_ok_shape img proj.script 0 reqs vs hg
    cases aud with
    | error e =>
      have hres : generateFullProduction st img (Except.error e) =
          ⟨{ st with currentStep := ProjectStep.SCRIPTING }, reqs,
           [jsJoin " " (proj.script.map (·.text))], true⟩ := by
        simp [generateFullProduction, hc, hg]
      intro p hp hready
      rw [hres] at hp
      rcases hp with hp | ⟨hp1, hp2⟩
      · simp only [hc] at hp
        injection hp with hp
        subst hp
        rw [hready] at hdraft
        cases hdraft
      · exact absurd hp1 hp2
    | ok a =>
      have hres : generateFullProduction st img (Except.ok a) =
          ⟨{ st with
               currentProject := some (committedProject proj vs a),
               projects := committedProject proj vs a :: st.projects,
               currentStep := ProjectStep.REVIEW,
               isPlaying := true },
           reqs, [jsJoin " " (proj.script.map (·.text))], false⟩ := by
        simp [generateFullProduction, hc, hg, committedProject]
      intro p hp _
      have hfinal : p = committedProject proj vs a := by
        rw [hres] at hp
        rcases hp with hp | ⟨hp1, hp2⟩
        · injection hp with hp
          exact hp.symm
        · rcases List.mem_cons.mp hp1 with h | h
          · exact h
          · exact absurd h hp2
      subst hfinal
      exact ⟨rfl, hlen, hidx⟩

/-- Witness for `ready_only_with_all_visuals_and_audio`: the fully
successful run on the 5-segment draft project. -/
theorem ready_only_with_all_visuals_and_audio_witness :
    cexProduced5.audioData.isSome = true ∧
    cexProduced5.visuals.length = cexProduced5.script.length :=
  let h := ready_only_with_all_visuals_and_audio cexState5 allOkImg
    (Except.ok "audio") cexProj5 rfl rfl cexProduced5 (Or.inl (by decide)) rfl
  ⟨h.1, h.2.1⟩

/-! ## Claim C7 -/

/-- Claim C7: every text `produce` sends to the speech-synthesis Gateway
equals the concatenation of all segments' voiceover texts in script
order joined by a single space, and when the per-segment image loop
completes the speech capability is invoked exactly once, with exactly
that text (one audio handle for the whole project). -/
theorem speech_text_single_joined_call (st : AppState)
    (img : Nat → Except Unit String) (aud : Except Unit String)
    (proj : Project) (u : Nat → String)
    (hc : st.currentProject = some proj) :
    (∀ t ∈ (generateFullProduction st img aud).speechRequests,
        t = String.intercalate " " (proj.script.map (·.text))) ∧
    ((∀ j, j < proj.script.length → img j = Except.ok (u j)) →
      (generateFullProduction st img aud).speechRequests
          = [String.intercalate " " (proj.script.map (·.text))]) := by
  constructor
  · intro t ht
    rcases hg : genVisualsAux proj.script img 0 with ⟨reqs, vres⟩
    cases vres with
    | error e =>
      simp [generateFullProduction, hc, hg] at ht
    | ok vs =>
      cases haud : aud with
      | error e =>
        simp [generateFullProduction, hc, hg, haud] at ht
        rw [ht, jsJoin_eq_intercalate]
      | ok a =>
        simp [generateFullProduction, hc, hg, haud] at ht
        rw [ht, jsJoin_eq_intercalate]
  · intro hall
    cases aud with
    | error e =>
      obtain ⟨⟩ := e
      rw [generateFullProduction_audioFail st img (Except.error ()) proj u hc hall rfl]
      rw [jsJoin_eq_intercalate]
    | ok a =>
      rw [generateFullProduction_allOk st img (Except.ok a) proj u a hc hall rfl]
      rw [jsJoin_eq_intercalate]

/-- Witness for `speech_text_single_joined_call`: the fully successful
run on the 5-segment project sends exactly one speech request, namely
the five voiceover texts joined by single spaces. -/
theorem speech_text_single_joined_call_witness :
    (generateFullProduction cexState5 allOkImg (Except.ok "audio")).speechRequests
        = [String.intercalate " " (cexProj5.script.map (·.text))] :=
  (speech_text_single_joined_call cexState5 allOkImg (Except.ok "audio")
    cexProj5 (fun _ => "img") rfl).2 (fun _ _ => rfl)

/-! ## Claim C4 -/

/-- Claim C4 is false at a concrete input: a Gateway response whose text
parses as valid JSON of the wrong shape — here the object `{"x": 1}` —
is returned by `brainstormIdeas` as-is, so the result is neither a list
of well-formed Ideas nor the empty list.  Only a JSON syntax error is
downgraded to the empty list. -/
theorem brainstorm_shape_counterexample :
    isIdeaList (brainstormIdeas (Except.ok (Json.obj [("x", Json.num 1)]))) = false ∧
    brainstormIdeas (Except.ok (Json.obj [("x", Json.num 1)])) ≠ Json.arr [] := by
  constructor
  · rfl
  · intro h
    exact Json.noConfusion h

/-- Claim C4 amended: `brainstormIdeas` is fail-soft only against JSON
syntax errors — when `JSON.parse` throws, the caught exception yields
the empty array and nothing escapes to the caller; when the response
text parses, the parsed value is returned unchanged, with no validation
of the expected Idea shape. -/
theorem brainstorm_failSoft_syntax_only :
    (∀ e : Unit, brainstormIdeas (Except.error e) = Json.arr []) ∧
    (∀ v : Json, brainstormIdeas (Except.ok v) = v) :=
  ⟨fun _ => rfl, fun _ => rfl⟩

/-! ## Claim C8 -/

/-- Every character of the output of the whitespace-collapsing replace
is either the inserted underscore or a non-whitespace character of the
input; in particular no whitespace remains. -/
theorem collapseWsAux_chars :
    ∀ (l : List Char) (b : Bool) (c : Char), c ∈ collapseWsAux b l →
      isJsSpace c = false ∧ (c = '_' ∨ c ∈ l) := by
  intro l
  induction l with
  | nil =>
    intro b c h
    simp [collapseWsAux] at h
  | cons d rest ih =>
    intro b c h
    cases hd : isJsSpace d with
    | true =>
      cases b with
      | true =>
        simp only [collapseWsAux, hd, if_true] at h
        obtain ⟨h1, h2⟩ := ih true c h
        exact ⟨h1, h2.imp id (List.mem_cons_of_mem d)⟩
      | false =>
        simp only [collapseWsAux, hd, if_true, if_false] at h
        rcases List.mem_cons.mp h with h0 | h0
        · subst h0
          exact ⟨by decide, Or.inl rfl⟩
        · obtain ⟨h1, h2⟩ := ih true c h0
          exact ⟨h1, h2.imp id (List.mem_cons_of_mem d)⟩
    | false =>
      simp only [collapseWsAux, hd, Bool.false_eq_true, if_false] at h
      rcases List.mem_cons.mp h with h0 | h0
      · subst h0
        exact ⟨hd, Or.inr (List.mem_cons_self c rest)⟩
      · obtain ⟨h1, h2⟩ := ih false c h0
        exact ⟨h1, h2.imp id (List.mem_cons_of_mem d)⟩

/-- Claim C8 is false at a concrete input: for the title `"a/b"` the
download name is `"a/b_inflow.webm"`, which still contains the unsafe
filename character `'/'` — `handleExport` replaces only whitespace. -/
theorem exportFileName_unsafeChar_counterexample :
    exportFileName "a/b" = "a/b_inflow.webm" ∧
    Char.ofNat 47 ∈ (exportFileName "a/b").data := by
  constructor
  · rfl
  · decide

/-- Claim C8 amended: the download name is the project title with each
maximal run of whitespace replaced by a single underscore, followed by
`_inflow.webm`; the sanitized title contains no whitespace, but every
non-whitespace character of the title — including unsafe filename
characters such as `/` — is preserved (each output character is either
the inserted underscore or a character of the title). -/
theorem exportFileName_whitespace_sanitized (title : String) :
    exportFileName title = sanitizeTitle title ++ "_inflow.webm" ∧
    (∀ c ∈ (sanitizeTitle title).data, isJsSpace c = false) ∧
    (∀ c ∈ (sanitizeTitle title).data, c = '_' ∨ c ∈ title.data) := by
  refine ⟨rfl, ?_, ?_⟩
  · intro c hc
    exact (collapseWsAux_chars title.data false c (by simpa [sanitizeTitle] using hc)).1
  · intro c hc
    exact (collapseWsAux_chars title.data false c (by simpa [sanitizeTitle] using hc)).2

/-- Witness for `exportFileName_whitespace_sanitized` at the title
`"a b"` (sanitized to `"a_b"`) and its underscore character. -/
theorem exportFileName_whitespace_sanitized_witness :
    exportFileName "a b" = sanitizeTitle "a b" ++ "_inflow.webm" ∧
    isJsSpace '_' = false :=
  ⟨(exportFileName_whitespace_sanitized "a b").1,
   (exportFileName_whitespace_sanitized "a b").2.1 '_' (by decide)⟩

/-! ## Claim C9 -/

def dupScript : List ScriptSegment :=
  [⟨"a", "0:00", "t0", "p0"⟩, ⟨"a", "0:05", "t1", "p1"⟩]

def dupProj : Project :=
  ⟨"dup", "niche", cexIdea, dupScript, none, [], 0, ProjectStatus.draft⟩

def dupState : AppState := ⟨[], some dupProj, ProjectStep.SCRIPTING, false⟩

def dupProduced : Project :=
  { dupProj with
      visuals := [⟨"img", "a", false⟩, ⟨"img", "a", false⟩],
      audioData := some "audio", status := ProjectStatus.ready }

/-- Claim C9 is false at a concrete input: segment ids come from the
Gateway's script response unchecked, so a script whose two segments
share the id `"a"` produces a project in which the first Visual's
`segmentId` matches TWO segments, not exactly one (and the claimed
bijection also fails: both Visuals carry the same `segmentId`). -/
theorem visual_bijection_counterexample :
    (generateFullProduction dupState allOkImg (Except.ok "audio")).state.currentProject
        = some dupProduced ∧
    (dupProduced.visuals.getD 0 dummyVis).segmentId = "a" ∧
    dupProduced.script.countP (fun s => s.id == "a") = 2 := by
  decide

/-- With pairwise distinct segment ids, an id occurring among them
occurs exactly once. -/
theorem countP_id_eq_one {script : List ScriptSegment} {a : String}
    (hnd : (script.map (·.id)).Nodup) (ha : a ∈ script.map (·.id)) :
    script.countP (fun s => s.id == a) = 1 := by
  have h1 : List.count a (script.map (·.id)) = 1 :=
    List.count_eq_one_of_mem hnd ha
  rw [List.count, List.countP_map] at h1
  exact h1

/-- Claim C9 amended: a freshly created project has no visuals (so
`visuals.length ≤ script.length` trivially), and `produce` on a project
without visuals keeps `visuals.length ≤ script.length`; each Visual's
`segmentId` matches exactly one Segment provided the script's segment
ids are pairwise distinct — a property the orchestrator does not itself
guarantee, since the ids come from the Gateway's script response. -/
theorem visuals_invariant_nodup_ids :
    (∀ (idea : VideoIdea) (script : List ScriptSegment) (pid : String) (now : Nat),
       (createProjectFromIdea idea script pid now).visuals = [] ∧
       (createProjectFromIdea idea script pid now).visuals.length ≤
         (createProjectFromIdea idea script pid now).script.length) ∧
    (∀ (st : AppState) (img : Nat → Except Unit String) (aud : Except Unit String)
       (proj : Project) (p : Project),
       st.currentProject = some proj → proj.visuals = [] →
       (generateFullProduction st img aud).state.currentProject = some p →
       p.visuals.length ≤ p.script.length ∧
       ((proj.script.map (·.id)).Nodup →
         ∀ v ∈ p.visuals, p.script.countP (fun s => s.id == v.segmentId) = 1)) := by
  constructor
  · intro idea script pid now
    exact ⟨rfl, by simp [createProjectFromIdea]⟩
  · intro st img aud proj p hc hvis hp
    rcases hg : genVisualsAux proj.script img 0 with ⟨reqs, vres⟩
    cases vres with
    | error e =>
      have hres : generateFullProduction st img aud =
          ⟨{ st with currentStep := ProjectStep.SCRIPTING }, reqs, [], true⟩ := by
        simp [generateFullProduction, hc, hg]
      rw [hres] at hp
      simp only [hc] at hp
      injection hp with hp
      subst hp
      rw [hvis]
      exact ⟨by simp, fun _ v hv => absurd hv (List.not_mem_nil v)⟩
    | ok vs =>
      obtain ⟨hlen, hidx, hmem⟩ := genVisualsAux_ok_shape img proj.script 0 reqs vs hg
      cases aud with
      | error e =>
        have hres : generateFullProduction st img (Except.error e) =
            ⟨{ st with currentStep := ProjectStep.SCRIPTING }, reqs,
             [jsJoin " " (proj.script.map (·.text))], true⟩ := by
          simp [generateFullProduction, hc, hg]
        rw [hres] at hp
        simp only [hc] at hp
        injection hp with hp
        subst hp
        rw [hvis]
        exact ⟨by simp, fun _ v hv => absurd hv (List.not_mem_nil v)⟩
      | ok a =>
        have hres : generateFullProduction st img (Except.ok a) =
            ⟨{ st with
                 currentProject := some (committedProject proj vs a),
                 projects := committedProject proj vs a :: st.projects,
                 currentStep := ProjectStep.REVIEW,
                 isPlaying := true },
             reqs, [jsJoin " " (proj.script.map (·.text))], false⟩ := by
          simp [generateFullProduction, hc, hg, committedProject]
        rw [hres] at hp
        injection hp with hp
        subst hp
        refine ⟨le_of_eq (by simpa [committedProject] using hlen), ?_⟩
        intro hnd v hv
        have hv' : v ∈ vs := by simpa [committedProject] using hv
        have hmem' : v.segmentId ∈ proj.script.map (·.id) := hmem v hv'
        simpa [committedProject] using countP_id_eq_one hnd hmem'

/-- Witness for `visuals_invariant_nodup_ids`: the fully successful run
on the 5-segment project (whose ids are pairwise distinct). -/
theorem visuals_invariant_nodup_ids_witness :
    cexProduced5.visuals.length ≤ cexProduced5.script.length :=
  (visuals_invariant_nodup_ids.2 cexState5 allOkImg (Except.ok "audio")
    cexProj5 cexProduced5 rfl rfl (by decide)).1

/-! ## Claim C10 -/

/-- Claim C10: when the niche input is empty or whitespace-only after
trimming, `handleBrainstorm` returns immediately — no Gateway call is
issued and the whole state (ideas, current project, persisted project
list, loading message, input) is exactly as before. -/
theorem handleBrainstorm_blankNiche_noop (st : IdeationState)
    (res : Except Unit (List VideoIdea))
    (h : jsTrim st.nicheInput = "") :
    handleBrainstorm st res = (st, []) := by
  simp [handleBrainstorm, h]

/-- Witness for `handleBrainstorm_blankNiche_noop` on a whitespace-only
niche input. -/
theorem handleBrainstorm_blankNiche_noop_witness :
    handleBrainstorm ⟨"   ", [], none, [], none⟩ (Except.ok [cexIdea])
        = (⟨"   ", [], none, [], none⟩, []) :=
  handleBrainstorm_blankNiche_noop ⟨"   ", [], none, [], none⟩
    (Except.ok [cexIdea]) (by decide)

end Inflow
